import Mathlib

/-!
# Page-processing pipeline of the congress.gov harvester (`src/main.js`)

A shallow embedding of the Cheerio request handler: the JavaScript string
primitives it relies on, the part of the Cheerio selection interface it calls,
the four heuristic probe chains (title, date, type, summary), the emission
policy and the surrounding `try`/`catch`. Link resolution and glob filtering
are done by the crawl engine behind `enqueueLinks`; they are modelled from the
specification in a section of their own.
-/

namespace Korak

/-! ## JavaScript string primitives -/

/-- Code points removed by `String.prototype.trim` (ECMAScript WhiteSpace and
LineTerminator): TAB, LF, VT, FF, CR, SP, NBSP, the Unicode space separators,
LS, PS and the byte-order mark. -/
def isJsWhiteSpace (c : Char) : Bool :=
  decide (c.toNat ∈ [0x09, 0x0A, 0x0B, 0x0C, 0x0D, 0x20, 0xA0, 0x1680,
    0x2000, 0x2001, 0x2002, 0x2003, 0x2004, 0x2005, 0x2006, 0x2007, 0x2008,
    0x2009, 0x200A, 0x2028, 0x2029, 0x202F, 0x205F, 0x3000, 0xFEFF])

/-- Characters left after dropping leading white space. -/
def trimStartChars (cs : List Char) : List Char :=
  cs.dropWhile isJsWhiteSpace

/-- Characters left after dropping trailing white space. -/
def trimEndChars (cs : List Char) : List Char :=
  (trimStartChars cs.reverse).reverse

/-- The method `String.prototype.trim`. -/
def trim (s : String) : String :=
  ⟨trimEndChars (trimStartChars s.data)⟩

/-- Substring search on character lists: does `sub` occur in `cs`? -/
def includesChars : List Char → List Char → Bool
  | [], sub => sub.isEmpty
  | c :: cs, sub => sub.isPrefixOf (c :: cs) || includesChars cs sub

/-- The method `String.prototype.includes`. -/
def includes (s sub : String) : Bool :=
  includesChars s.data sub.data

/-- JavaScript truthiness of a value that is a string or `undefined`
(`none`): only a non-empty string is truthy. -/
def truthy : Option String → Bool
  | some s => decide (s ≠ "")
  | none => false

/-- The expression `x || ''` for `x` a string or `undefined`. -/
def orEmpty : Option String → String
  | some s => s
  | none => ""

/-- ASCII lower-casing, the restriction of `String.prototype.toLowerCase` to
serialised (ASCII) URLs; used as the concrete instance in worked examples. -/
def asciiLower (s : String) : String :=
  ⟨s.data.map Char.toLower⟩

/-! ## The Cheerio selection interface used by the handler -/

/-- An element matched by a selector: its text content (the concatenated text
of its descendants) and its attributes. -/
structure Element where
  text : String
  attribs : List (String × String)
  deriving DecidableEq

/-- The method `.first()`: the selection reduced to its first element. -/
def first (sel : List Element) : List Element :=
  sel.take 1

/-- The method `.text()`: the combined text of every element of the selection. -/
def text (sel : List Element) : String :=
  ⟨(sel.map fun e => e.text.data).flatten⟩

/-- The method `.attr(name)`: the attribute of the first element of the
selection, `undefined` when the selection is empty or the attribute absent. -/
def attr (sel : List Element) (name : String) : Option String :=
  match sel with
  | [] => none
  | e :: _ => e.attribs.lookup name

/-! ## Handler context, records and observable effects -/

/-- The `request` object: the requested URL and the URL after redirects. -/
structure Request where
  url : String
  loadedUrl : Option String

/-- The object handed to `Dataset.pushData`. -/
structure Record where
  title : String
  date : String
  type : String
  summary : String
  url : String
  deriving DecidableEq

/-- Calls the handler makes on its collaborators, in program order. A
`pushData` effect is the call itself: it is there whether the dataset then
accepts the record or rejects it. -/
inductive Effect where
  | logInfo (msg : String) (data : List (String × String))
  | logDebug (msg : String) (data : List (String × String))
  | logWarning (msg : String) (data : List (String × String))
  | enqueueLinks (globs : List String)
  | pushData (item : Record)
  deriving DecidableEq

/-- The crawling context destructured by `requestHandler`. The parsed document
behind `$` is given by `select` (the elements a selector matches, in document
order) and `fault` (the message of the error the selector engine throws for a
selector, if it throws). `enqueueLinks` and `pushData` are the completions of
the two awaited calls: fulfilled, or rejected with a message (`pushData` is the
imported `Dataset.pushData`, as the run's dataset answers it). -/
structure Context where
  request : Request
  select : String → List Element
  fault : String → Option String
  enqueueLinks : List String → Except String Unit
  pushData : Record → Except String Unit

/-- The call `$(selector)`: the matched elements, or the thrown error. -/
def Context.dollar (ctx : Context) (selector : String) : Except String (List Element) :=
  match ctx.fault selector with
  | some m => Except.error m
  | none => Except.ok (ctx.select selector)

/-- Line 19: `request.loadedUrl ?? request.url`. -/
def pageUrl (ctx : Context) : String :=
  ctx.request.loadedUrl.getD ctx.request.url

/-- What one invocation of the handler does: its calls on the collaborators
and whether the returned promise is fulfilled or rejected. -/
structure Outcome where
  effects : List Effect
  result : Except String Unit

/-- The values of the local variables `title`, `date`, `type`, `summary` once
every probe has run. -/
structure Fields where
  title : String
  date : String
  type : Option String
  summary : String
  deriving DecidableEq

/-! ## The probe chains (lines 31-53) -/

/-- Line 32: `$('h1').first().text().trim() || $('title').text().trim()`. -/
def probeTitle (dollar : String → Except String (List Element)) :
    Except String String := do
  let h1 ← dollar "h1"
  let heading := trim (text (first h1))
  if heading ≠ "" then pure heading
  else do
    let t ← dollar "title"
    pure (trim (text t))

/-- Lines 35-39: the `datetime` attribute, two metadata values, then the text
of the first date-styled region. -/
def probeDate (dollar : String → Except String (List Element)) :
    Except String String := do
  let time ← dollar "time"
  let a := attr (first time) "datetime"
  let date ←
    if truthy a then pure (orEmpty a)
    else do
      let dc ← dollar "meta[name=\"DC.date\"]"
      let b := attr dc "content"
      if truthy b then pure (orEmpty b)
      else do
        let pt ← dollar "meta[property=\"article:published_time\"]"
        pure (orEmpty (attr pt "content"))
  if date ≠ "" then pure date
  else do
    let region ← dollar "span.date, .result-item .date, .display-date, .publication-date"
    let dateText := trim (text (first region))
    pure (if dateText ≠ "" then dateText else date)

/-- Lines 42-46: URL-substring rules, then the Open-Graph type. The variable
starts as the empty string and is assigned at most once. -/
def probeType (toLowerCase : String → String) (url : String)
    (dollar : String → Except String (List Element)) :
    Except String (Option String) :=
  if includes url "/bill/" || includes url "/bills/" then pure (some "bill")
  else if includes (toLowerCase url) "press"
      || includes (toLowerCase url) "press-release" then pure (some "press_release")
  else if includes (toLowerCase url) "disclosure"
      || includes (toLowerCase url) "financial" then pure (some "disclosure")
  else do
    let og ← dollar "meta[property=\"og:type\"]"
    if truthy (attr og "content") then do
      let again ← dollar "meta[property=\"og:type\"]"
      pure (attr again "content")
    else pure (some "")

/-- Lines 49-53: description metadata, Open-Graph description, then the text
of the first paragraph. -/
def probeSummary (dollar : String → Except String (List Element)) :
    Except String String := do
  let md ← dollar "meta[name=\"description\"]"
  let a := attr md "content"
  let summary ←
    if truthy a then pure (orEmpty a)
    else do
      let og ← dollar "meta[property=\"og:description\"]"
      pure (orEmpty (attr og "content"))
  if summary ≠ "" then pure summary
  else do
    let para ← dollar "p"
    let p := trim (text (first para))
    pure (if p ≠ "" then p else summary)

/-- Lines 31-53 in program order; the first probe that throws ends the block. -/
def probeFields (toLowerCase : String → String) (url : String)
    (dollar : String → Except String (List Element)) : Except String Fields := do
  let title ← probeTitle dollar
  let date ← probeDate dollar
  let type ← probeType toLowerCase url dollar
  let summary ← probeSummary dollar
  pure { title := title, date := date, type := type, summary := summary }

/-! ## Emission policy and the handler -/

/-- The object literal of lines 57-63. Each `x || ''` on a string is the
string itself; on `type` it also maps `undefined` to the empty string. -/
def mkRecord (f : Fields) (url : String) : Record :=
  { title := f.title, date := f.date, type := orEmpty f.type,
    summary := f.summary, url := url }

/-- Lines 56-67: the calls made and how this part of the `try` block
completes. When `title || summary` is truthy the record is handed to the
dataset; if that awaited call is fulfilled "Saved item" is logged, if it is
rejected the error is thrown and line 64 is not reached. Otherwise a debug
message is logged. The logger is a collaborator taken to accept every call. -/
def emit (pushData : Record → Except String Unit) (f : Fields) (url : String) :
    List Effect × Except String Unit :=
  if f.title ≠ "" ∨ f.summary ≠ "" then
    match pushData (mkRecord f url) with
    | Except.ok _ =>
      ([Effect.pushData (mkRecord f url),
        Effect.logInfo "Saved item" [("title", f.title), ("url", url)]], Except.ok ())
    | Except.error m => ([Effect.pushData (mkRecord f url)], Except.error m)
  else
    ([Effect.logDebug "No meaningful title/summary found" [("url", url)]], Except.ok ())

/-- The globs passed to `enqueueLinks` (line 24). -/
def linkGlobs : List String :=
  ["**/bill/**", "**/member/**", "**/press-release/**", "**/committees/**", "**/search**"]

/-- The `try` block (lines 31-67): the calls it makes and whether it completes
normally or throws. A probe that throws ends the block before any call. -/
def tryBlock (toLowerCase : String → String) (ctx : Context) :
    List Effect × Except String Unit :=
  match probeFields toLowerCase (pageUrl ctx) ctx.dollar with
  | Except.error m => ([], Except.error m)
  | Except.ok f => emit ctx.pushData f (pageUrl ctx)

/-- The request handler (lines 18-71). The call to `enqueueLinks` is outside
the `try`, so its rejection rejects the handler; whatever is thrown inside the
`try`, by a probe or by the rejected push, is caught and reported as a
warning with the page URL and the message. -/
def requestHandler (toLowerCase : String → String) (ctx : Context) : Outcome :=
  let url := pageUrl ctx
  let pre := [Effect.logInfo "Processing" [("url", url)], Effect.enqueueLinks linkGlobs]
  match ctx.enqueueLinks linkGlobs with
  | Except.error e => { effects := pre, result := Except.error e }
  | Except.ok _ =>
    match tryBlock toLowerCase ctx with
    | (calls, Except.ok _) => { effects := pre ++ calls, result := Except.ok () }
    | (calls, Except.error m) =>
      { effects := pre ++ calls ++
          [Effect.logWarning "Extraction error" [("url", url), ("message", m)]],
        result := Except.ok () }

/-- The records handed to `Dataset.pushData` by a sequence of effects. -/
def pushed : List Effect → List Record
  | [] => []
  | Effect.pushData r :: rest => r :: pushed rest
  | _ :: rest => pushed rest

/-! ## Link Discoverer (specification §4.1)

The handler only passes its glob list to the crawl engine's `enqueueLinks`;
resolution and filtering of links happen outside `main.js`. The definitions of
this section follow the contract the specification gives for that step. -/

/-- Modelled from the spec: splitting of a path or glob into its `/`-separated
segments (the link-resolution and glob-matching code is not in `main.js`). -/
def splitSegments : List Char → List (List Char)
  | [] => [[]]
  | c :: cs =>
    if c = '/' then [] :: splitSegments cs
    else
      match splitSegments cs with
      | [] => [[c]]
      | seg :: segs => (c :: seg) :: segs

/-- Modelled from the spec: glob matching inside one segment, where `*`
"matches within one segment" (the matcher is not in `main.js`). -/
def segmentMatch : List Char → List Char → Bool
  | [], cs => cs.isEmpty
  | p :: ps, cs =>
    if p = '*' then cs.tails.any fun rest => segmentMatch ps rest
    else
      match cs with
      | [] => false
      | c :: rest => p == c && segmentMatch ps rest

/-- Modelled from the spec: glob matching over segments, where `**` "matches
zero or more path segments" (the matcher is not in `main.js`). -/
def segmentsMatch : List (List Char) → List (List Char) → Bool
  | [], segs => segs.isEmpty
  | g :: gs, segs =>
    if g = ['*', '*'] then segs.tails.any fun rest => segmentsMatch gs rest
    else
      match segs with
      | [] => false
      | seg :: rest => segmentMatch g seg && segmentsMatch gs rest

/-- Modelled from the spec: "matching is case-insensitive on the path
segment"; a path matches a glob when their segment lists match (the matcher
is not in `main.js`). -/
def globMatch (glob path : String) : Bool :=
  segmentsMatch (splitSegments (glob.data.map Char.toLower))
    (splitSegments (path.data.map Char.toLower))

/-- Modelled from the spec: the scheme of a URL reference, when it has one: a
letter followed by letters, digits, `+`, `-` or `.`, up to a colon (URL
parsing is not in `main.js`). Returns the scheme and what follows the colon. -/
def splitScheme (cs : List Char) : Option (List Char × List Char) :=
  let name := cs.takeWhile fun c => c.isAlphanum || c = '+' || c = '-' || c = '.'
  match name, cs.drop name.length with
  | a :: _, ':' :: rest => if a.isAlpha then some (name, rest) else none
  | _, _ => none

/-- Modelled from the spec: the scheme, authority and path-with-query of an
absolute URL `scheme://authority/path?query`, its fragment removed (URL
parsing is not in `main.js`). -/
def parseUrl (cs : List Char) : Option (List Char × List Char × List Char) :=
  match splitScheme (cs.takeWhile fun c => c ≠ '#') with
  | some (scheme, '/' :: '/' :: rest) =>
    let authority := rest.takeWhile fun c => c ≠ '/' ∧ c ≠ '?'
    some (scheme, authority, rest.drop authority.length)
  | _ => none

/-- Modelled from the spec: the path component of an absolute URL, the empty
string when the URL does not parse (URL parsing is not in `main.js`). -/
def urlPath (url : String) : String :=
  match parseUrl url.data with
  | some (_, _, rest) => ⟨rest.takeWhile fun c => c ≠ '?'⟩
  | none => ""

/-- Modelled from the spec: removal of `.` and `..` segments from a merged
path, so that "relative paths" resolve correctly (not in `main.js`). The
accumulator holds the segments kept so far, last first. -/
def removeDotSegments : List (List Char) → List (List Char) → List (List Char)
  | acc, [] => acc.reverse
  | acc, [seg] =>
    if seg = ['.'] then ([] :: acc).reverse
    else if seg = ['.', '.'] then ([] :: (if acc.length ≤ 1 then acc else acc.tail)).reverse
    else (seg :: acc).reverse
  | acc, seg :: next :: rest =>
    if seg = ['.'] then removeDotSegments acc (next :: rest)
    else if seg = ['.', '.'] then
      removeDotSegments (if acc.length ≤ 1 then acc else acc.tail) (next :: rest)
    else removeDotSegments (seg :: acc) (next :: rest)

/-- Modelled from the spec: a hyperlink reference "resolved to an absolute URL
using the page's own URL as base", handling absolute references, protocol-
relative links, absolute and relative paths; fragment-only links "are
discarded" and a reference that cannot be resolved is skipped (the resolver is
not in `main.js`). -/
def resolveLink (base href : String) : Option String :=
  let ref := href.data.takeWhile fun c => c ≠ '#'
  match parseUrl base.data with
  | none => none
  | some (scheme, authority, basePath) =>
    let origin := scheme ++ [':', '/', '/'] ++ authority
    if ref.isEmpty then none
    else if (splitScheme ref).isSome then some ⟨ref⟩
    else
      match ref with
      | '/' :: '/' :: _ => some ⟨scheme ++ [':'] ++ ref⟩
      | '/' :: _ => some ⟨origin ++ ref⟩
      | '?' :: _ => some ⟨origin ++ basePath.takeWhile (fun c => c ≠ '?') ++ ref⟩
      | _ =>
        let refPath := ref.takeWhile fun c => c ≠ '?'
        let dir := (splitSegments (basePath.takeWhile fun c => c ≠ '?')).dropLast
        let merged := removeDotSegments [] ((if dir.isEmpty then [[]] else dir) ++ splitSegments refPath)
        some ⟨origin ++ List.intercalate ['/'] merged ++ ref.drop refPath.length⟩

/-- Modelled from the spec: the "deduplicated set" of URLs, first occurrences
kept (not in `main.js`). -/
def dedupUrls : List String → List String
  | [] => []
  | u :: us => u :: (dedupUrls us).filter fun v => v ≠ u

/-- Modelled from the spec: the contract `discover(page, patterns)`: every
hyperlink reference of the page is resolved against the page URL and retained
"only if its path component matches at least one glob in `patterns`" (the
Link Discoverer is the crawl engine's `enqueueLinks`, not in `main.js`). -/
def discover (base : String) (hrefs : List String) (patterns : List String) : List String :=
  dedupUrls (((hrefs.filterMap (resolveLink base))).filter fun u =>
    patterns.any fun g => globMatch g (urlPath u))

/-- The PageType enumeration of the specification's data model. -/
def pageTypes : List String :=
  ["bill", "press_release", "disclosure", "other", "unknown"]

/-! ## Example pages -/

/-- A document in which no selector throws, given by its matches; the crawl
engine and the dataset accept every call. -/
def pageOf (url : String) (select : String → List Element) : Context :=
  { request := { url := url, loadedUrl := none },
    select := select,
    fault := fun _ => none,
    enqueueLinks := fun _ => Except.ok (),
    pushData := fun _ => Except.ok () }

/-- A bill page: heading, `time` element, generic Open-Graph type, paragraph. -/
def billPage : Context :=
  pageOf "https://www.congress.gov/bill/hr123" fun selector =>
    if selector = "h1" then [{ text := "\n  H.R. 123 Overview ", attribs := [] }]
    else if selector = "title" then [{ text := "Congress.gov", attribs := [] }]
    else if selector = "time" then [{ text := "March 1", attribs := [("datetime", "2024-03-01")] }]
    else if selector = "meta[property=\"og:type\"]" then
      [{ text := "", attribs := [("property", "og:type"), ("content", "website")] }]
    else if selector = "p" then
      [{ text := " A bill about trade. ", attribs := [] }, { text := "Second.", attribs := [] }]
    else []

/-- A press page under an upper-case path, without heading. -/
def pressPage : Context :=
  pageOf "https://example.house.gov/Press/Financial-Disclosure" fun selector =>
    if selector = "h1" then [{ text := "   ", attribs := [] }]
    else if selector = "title" then [{ text := " Press office ", attribs := [] }]
    else if selector = "meta[property=\"og:type\"]" then
      [{ text := "", attribs := [("content", "article")] }]
    else if selector = "meta[property=\"article:published_time\"]" then
      [{ text := "", attribs := [("content", "2024-05-06T10:00:00Z")] }]
    else []

/-- A page matching no URL rule, with a heading and nothing else. -/
def plainPage : Context :=
  pageOf "https://www.congress.gov/about" fun selector =>
    if selector = "h1" then [{ text := "About", attribs := [] }] else []

/-- A page matching no URL rule whose Open-Graph type is `website`. -/
def websitePage : Context :=
  pageOf "https://www.congress.gov/about" fun selector =>
    if selector = "h1" then [{ text := "About", attribs := [] }]
    else if selector = "meta[property=\"og:type\"]" then
      [{ text := "", attribs := [("content", "website")] }]
    else []

/-- A page whose description metadata is padded with blanks. -/
def paddedPage : Context :=
  pageOf "https://www.congress.gov/about" fun selector =>
    if selector = "h1" then [{ text := "About", attribs := [] }]
    else if selector = "meta[name=\"description\"]" then
      [{ text := "", attribs := [("content", " padded ")] }]
    else []

/-- A page with an empty heading, no metadata and no paragraph. -/
def emptyPage : Context :=
  pageOf "https://www.congress.gov/empty" fun selector =>
    if selector = "h1" then [{ text := "", attribs := [] }] else []

/-- A page on which the selector engine throws while probing `time`. -/
def faultyPage : Context :=
  { request := { url := "https://www.congress.gov/bill/hr9", loadedUrl := some "https://www.congress.gov/bill/hr9/text" },
    select := fun selector =>
      if selector = "h1" then [{ text := "H.R. 9", attribs := [] }] else [],
    fault := fun selector => if selector = "time" then some "unmatched pseudo-class" else none,
    enqueueLinks := fun _ => Except.ok (),
    pushData := fun _ => Except.ok () }

/-- The bill page in a run whose dataset rejects the record. -/
def rejectedPage : Context :=
  { billPage with pushData := fun _ => Except.error "Data item is too large" }

/-- A page with a blank heading and two `title` elements: the document title
in the head and the title of an inline `svg` in the body. -/
def twoTitlePage : Context :=
  pageOf "https://www.congress.gov/about" fun selector =>
    if selector = "h1" then [{ text := " ", attribs := [] }]
    else if selector = "title" then
      [{ text := "Head title", attribs := [] }, { text := "Icon", attribs := [] }]
    else []

/-- The record the bill page yields. -/
def billRecord : Record :=
  { title := "H.R. 123 Overview", date := "2024-03-01", type := "bill",
    summary := "A bill about trade.", url := "https://www.congress.gov/bill/hr123" }

/-- The record the press page yields. -/
def pressRecord : Record :=
  { title := "Press office", date := "2024-05-06T10:00:00Z", type := "press_release",
    summary := "", url := "https://example.house.gov/Press/Financial-Disclosure" }

/-- The record the plain page yields. -/
def plainRecord : Record :=
  { title := "About", date := "", type := "", summary := "",
    url := "https://www.congress.gov/about" }

/-- The record the website page yields. -/
def websiteRecord : Record :=
  { title := "About", date := "", type := "website", summary := "",
    url := "https://www.congress.gov/about" }

/-- The record the two-title page yields. -/
def twoTitleRecord : Record :=
  { title := "Head titleIcon", date := "", type := "", summary := "",
    url := "https://www.congress.gov/about" }

/-- The record the padded page yields. -/
def paddedRecord : Record :=
  { title := "About", date := "", type := "", summary := " padded ",
    url := "https://www.congress.gov/about" }

/-- Specification of a fallback chain: the first non-empty candidate, the
empty string when there is none. -/
def firstNonEmpty : List String → String
  | [] => ""
  | s :: rest => if s ≠ "" then s else firstNonEmpty rest

/-- A string has no white space at either end. -/
def noEdgeWhiteSpace (s : String) : Prop :=
  (∀ c, s.data.head? = some c → isJsWhiteSpace c = false) ∧
  (∀ c, s.data.getLast? = some c → isJsWhiteSpace c = false)

/-! ## Supporting lemmas -/

theorem dollar_ok {ctx : Context} {selector : String} {els : List Element}
    (h : ctx.dollar selector = Except.ok els) : els = ctx.select selector := by
  unfold Context.dollar at h
  cases hf : ctx.fault selector with
  | none => rw [hf] at h; injection h with h; exact h.symm
  | some m => rw [hf] at h; cases h

theorem dollar_error {ctx : Context} {selector m : String}
    (h : ctx.dollar selector = Except.error m) : ctx.fault selector = some m := by
  unfold Context.dollar at h
  cases hf : ctx.fault selector with
  | none => rw [hf] at h; cases h
  | some e => rw [hf] at h; injection h with h; rw [h]

theorem probeFields_ok {lower : String → String} {url : String}
    {d : String → Except String (List Element)} {f : Fields}
    (h : probeFields lower url d = Except.ok f) :
    probeTitle d = Except.ok f.title ∧ probeDate d = Except.ok f.date ∧
      probeType lower url d = Except.ok f.type ∧
      probeSummary d = Except.ok f.summary := by
  unfold probeFields at h
  cases ht : probeTitle d <;> cases hd : probeDate d <;>
    cases hty : probeType lower url d <;> cases hs : probeSummary d <;>
    simp_all [bind, Except.bind, pure, Except.pure]
  subst h
  simp

theorem mem_pushed_requestHandler {lower : String → String} {ctx : Context} {r : Record}
    (h : r ∈ pushed (requestHandler lower ctx).effects) :
    ∃ f, probeFields lower (pageUrl ctx) ctx.dollar = Except.ok f ∧
      (f.title ≠ "" ∨ f.summary ≠ "") ∧ r = mkRecord f (pageUrl ctx) := by
  unfold requestHandler tryBlock at h
  cases hq : ctx.enqueueLinks linkGlobs with
  | error e => simp [hq, pushed] at h
  | ok u =>
    cases hp : probeFields lower (pageUrl ctx) ctx.dollar with
    | error m => simp [hq, hp, pushed] at h
    | ok f =>
      refine ⟨f, rfl, ?_⟩
      by_cases hc : f.title ≠ "" ∨ f.summary ≠ ""
      · refine ⟨hc, ?_⟩
        cases hd : ctx.pushData (mkRecord f (pageUrl ctx)) with
        | ok v =>
          simp only [hq, hp, emit, if_pos hc, hd] at h
          simpa [pushed] using h
        | error m =>
          simp only [hq, hp, emit, if_pos hc, hd] at h
          simpa [pushed] using h
      · simp only [hq, hp, emit, if_neg hc] at h
        simp [pushed] at h

theorem truthy_iff (a : Option String) : truthy a = true ↔ orEmpty a ≠ "" := by
  cases a with
  | none => simp [truthy, orEmpty]
  | some s => simp [truthy, orEmpty]

theorem probeTitle_val {ctx : Context} {t : String}
    (h : probeTitle ctx.dollar = Except.ok t) :
    t = firstNonEmpty [trim (text (first (ctx.select "h1"))), trim (text (ctx.select "title"))] := by
  unfold probeTitle at h
  cases h1 : ctx.dollar "h1" with
  | error e => simp [h1, bind, Except.bind] at h
  | ok els =>
    have e1 := dollar_ok h1
    subst e1
    simp only [h1, bind, Except.bind] at h
    by_cases hc : trim (text (first (ctx.select "h1"))) ≠ ""
    · simp only [if_pos hc, pure, Except.pure] at h
      injection h with h
      simp [firstNonEmpty, hc, h.symm]
    · simp only [if_neg hc] at h
      cases h2 : ctx.dollar "title" with
      | error e => simp [h2] at h
      | ok ts =>
        have e2 := dollar_ok h2
        subst e2
        simp only [h2, pure, Except.pure] at h
        injection h with h
        simp only [firstNonEmpty, if_neg hc, ← h]
        split <;> simp_all

theorem probeDate_val {ctx : Context} {v : String}
    (h : probeDate ctx.dollar = Except.ok v) :
    v = firstNonEmpty
      [orEmpty (attr (first (ctx.select "time")) "datetime"),
       orEmpty (attr (ctx.select "meta[name=\"DC.date\"]") "content"),
       orEmpty (attr (ctx.select "meta[property=\"article:published_time\"]") "content"),
       trim (text (first (ctx.select
         "span.date, .result-item .date, .display-date, .publication-date")))] := by
  unfold probeDate Context.dollar at h
  cases f1 : ctx.fault "time" <;>
    cases f2 : ctx.fault "meta[name=\"DC.date\"]" <;>
    cases f3 : ctx.fault "meta[property=\"article:published_time\"]" <;>
    cases f4 : ctx.fault "span.date, .result-item .date, .display-date, .publication-date" <;>
    simp only [f1, f2, f3, f4, bind, Except.bind, pure, Except.pure, truthy_iff,
      firstNonEmpty] at h ⊢ <;>
    split_ifs at h ⊢ <;> simp_all

theorem probeSummary_val {ctx : Context} {v : String}
    (h : probeSummary ctx.dollar = Except.ok v) :
    v = firstNonEmpty
      [orEmpty (attr (ctx.select "meta[name=\"description\"]") "content"),
       orEmpty (attr (ctx.select "meta[property=\"og:description\"]") "content"),
       trim (text (first (ctx.select "p")))] := by
  unfold probeSummary Context.dollar at h
  cases f1 : ctx.fault "meta[name=\"description\"]" <;>
    cases f2 : ctx.fault "meta[property=\"og:description\"]" <;>
    cases f3 : ctx.fault "p" <;>
    simp only [f1, f2, f3, bind, Except.bind, pure, Except.pure, truthy_iff,
      firstNonEmpty] at h ⊢ <;>
    split_ifs at h ⊢ <;> simp_all

theorem probeType_val {lower : String → String} {url : String} {ctx : Context}
    {ty : Option String} (h : probeType lower url ctx.dollar = Except.ok ty) :
    orEmpty ty =
      if includes url "/bill/" || includes url "/bills/" then "bill"
      else if includes (lower url) "press" || includes (lower url) "press-release"
        then "press_release"
      else if includes (lower url) "disclosure" || includes (lower url) "financial"
        then "disclosure"
      else orEmpty (attr (ctx.select "meta[property=\"og:type\"]") "content") := by
  unfold probeType Context.dollar at h
  cases f1 : ctx.fault "meta[property=\"og:type\"]" <;>
    simp only [f1, bind, Except.bind, pure, Except.pure, truthy_iff] at h ⊢ <;>
    split_ifs at h ⊢ <;> (try injection h with h) <;> (try subst h) <;>
    first | rfl | simp_all [orEmpty]

theorem includesChars_iff (cs sub : List Char) :
    includesChars cs sub = true ↔ sub <:+: cs := by
  induction cs with
  | nil => simp [includesChars, List.isEmpty_iff]
  | cons c cs ih =>
    simp only [includesChars, Bool.or_eq_true, ih, List.isPrefixOf_iff_prefix]
    rw [List.infix_cons_iff]

theorem includes_of_includes_append {s a b : String}
    (h : includes s (a ++ b) = true) : includes s a = true := by
  unfold includes at h ⊢
  rw [includesChars_iff] at h ⊢
  have hp : a.data <:+: (a ++ b).data := by
    rw [String.data_append]
    exact (List.prefix_append _ _).isInfix
  exact hp.trans h

theorem not_includes_press_release {s : String} (h : includes s "press" = false) :
    includes s "press-release" = false := by
  by_contra hc
  have hc2 : includes s ("press" ++ "-release") = true := by
    simpa using hc
  rw [includes_of_includes_append hc2] at h
  cases h

theorem head_trimStartChars (cs : List Char) (c : Char)
    (h : (trimStartChars cs).head? = some c) : isJsWhiteSpace c = false := by
  unfold trimStartChars at h
  have hn := List.head?_dropWhile_not isJsWhiteSpace cs
  rw [h] at hn
  exact hn

theorem getLast_trimStartChars (cs : List Char) (c : Char)
    (h : (trimStartChars cs).getLast? = some c) : cs.getLast? = some c := by
  unfold trimStartChars at h
  induction cs with
  | nil => simp at h
  | cons a cs ih =>
    rw [List.dropWhile_cons] at h
    split_ifs at h with ha
    · have hl := ih h
      cases cs with
      | nil => simp at hl
      | cons b cs => rw [List.getLast?_cons_cons]; exact hl
    · exact h

theorem noEdgeWhiteSpace_trim (s : String) : noEdgeWhiteSpace (trim s) := by
  unfold noEdgeWhiteSpace trim trimEndChars
  constructor
  · intro c hc
    simp only [List.head?_reverse] at hc
    have h1 := getLast_trimStartChars _ c hc
    rw [List.getLast?_reverse] at h1
    exact head_trimStartChars _ c h1
  · intro c hc
    simp only [List.getLast?_reverse] at hc
    exact head_trimStartChars _ c hc

theorem probeTitle_error {ctx : Context} {m : String}
    (h : probeTitle ctx.dollar = Except.error m) :
    ∃ selector, ctx.fault selector = some m := by
  unfold probeTitle Context.dollar at h
  cases f1 : ctx.fault "h1" <;> cases f2 : ctx.fault "title" <;>
    simp only [f1, f2, bind, Except.bind, pure, Except.pure] at h <;>
    (try split_ifs at h) <;> (try cases h) <;>
    first | exact ⟨_, f1⟩ | exact ⟨_, f2⟩

theorem probeDate_error {ctx : Context} {m : String}
    (h : probeDate ctx.dollar = Except.error m) :
    ∃ selector, ctx.fault selector = some m := by
  unfold probeDate Context.dollar at h
  cases f1 : ctx.fault "time" <;>
    cases f2 : ctx.fault "meta[name=\"DC.date\"]" <;>
    cases f3 : ctx.fault "meta[property=\"article:published_time\"]" <;>
    cases f4 : ctx.fault "span.date, .result-item .date, .display-date, .publication-date" <;>
    simp only [f1, f2, f3, f4, bind, Except.bind, pure, Except.pure] at h <;>
    (try split_ifs at h) <;> (try cases h) <;>
    first | exact ⟨_, f1⟩ | exact ⟨_, f2⟩ | exact ⟨_, f3⟩ | exact ⟨_, f4⟩

theorem probeType_error {lower : String → String} {url : String} {ctx : Context}
    {m : String} (h : probeType lower url ctx.dollar = Except.error m) :
    ∃ selector, ctx.fault selector = some m := by
  unfold probeType Context.dollar at h
  cases f1 : ctx.fault "meta[property=\"og:type\"]" <;>
    simp only [f1, bind, Except.bind, pure, Except.pure] at h
  all_goals try split_ifs at h
  all_goals try cases h
  all_goals exact ⟨_, f1⟩

theorem probeSummary_error {ctx : Context} {m : String}
    (h : probeSummary ctx.dollar = Except.error m) :
    ∃ selector, ctx.fault selector = some m := by
  unfold probeSummary Context.dollar at h
  cases f1 : ctx.fault "meta[name=\"description\"]" <;>
    cases f2 : ctx.fault "meta[property=\"og:description\"]" <;>
    cases f3 : ctx.fault "p" <;>
    simp only [f1, f2, f3, bind, Except.bind, pure, Except.pure] at h <;>
    (try split_ifs at h) <;> (try cases h) <;>
    first | exact ⟨_, f1⟩ | exact ⟨_, f2⟩ | exact ⟨_, f3⟩

theorem probeFields_error {lower : String → String} {url : String} {ctx : Context}
    {m : String} (h : probeFields lower url ctx.dollar = Except.error m) :
    ∃ selector, ctx.fault selector = some m := by
  unfold probeFields at h
  cases ht : probeTitle ctx.dollar with
  | error e =>
    simp only [ht, bind, Except.bind] at h
    cases h
    exact probeTitle_error ht
  | ok t =>
    cases hd : probeDate ctx.dollar with
    | error e =>
      simp only [ht, hd, bind, Except.bind] at h
      cases h
      exact probeDate_error hd
    | ok d =>
      cases hty : probeType lower url ctx.dollar with
      | error e =>
        simp only [ht, hd, hty, bind, Except.bind] at h
        cases h
        exact probeType_error hty
      | ok ty =>
        cases hs : probeSummary ctx.dollar with
        | error e =>
          simp only [ht, hd, hty, hs, bind, Except.bind] at h
          cases h
          exact probeSummary_error hs
        | ok sm =>
          simp only [ht, hd, hty, hs, bind, Except.bind, pure, Except.pure] at h
          cases h

theorem probeFields_total {lower : String → String} {url : String} {ctx : Context}
    (h : ∀ selector, ctx.fault selector = none) :
    ∃ f, probeFields lower url ctx.dollar = Except.ok f := by
  cases hp : probeFields lower url ctx.dollar with
  | ok f => exact ⟨f, rfl⟩
  | error m =>
    obtain ⟨selector, hs⟩ := probeFields_error hp
    rw [h selector] at hs
    cases hs

theorem title_of_pushed {lower : String → String} {ctx : Context} {r : Record}
    (hr : r ∈ pushed (requestHandler lower ctx).effects) :
    r.title = firstNonEmpty
      [trim (text (first (ctx.select "h1"))), trim (text (ctx.select "title"))] := by
  obtain ⟨f, hf, _, rfl⟩ := mem_pushed_requestHandler hr
  exact probeTitle_val (probeFields_ok hf).1

/-! ## The claims -/

/-- Claim C1. Once the extraction step is reached and no probe throws, the
handler hands exactly one record to the dataset when the extracted title or
summary is non-empty: followed by "Saved item" when the dataset accepts it, and
by the "Extraction error" warning when the dataset rejects it. When both are
empty it hands over nothing and logs one debug message carrying the page URL.
The handler's promise is fulfilled on each of these paths. -/
theorem emission_policy (lower : String → String) (ctx : Context) (f : Fields)
    (hq : ctx.enqueueLinks linkGlobs = Except.ok ())
    (hf : probeFields lower (pageUrl ctx) ctx.dollar = Except.ok f) :
    (requestHandler lower ctx).result = Except.ok () ∧
    (f.title ≠ "" ∨ f.summary ≠ "" →
      pushed (requestHandler lower ctx).effects = [mkRecord f (pageUrl ctx)] ∧
      (∀ msg data, Effect.logDebug msg data ∉ (requestHandler lower ctx).effects) ∧
      (ctx.pushData (mkRecord f (pageUrl ctx)) = Except.ok () →
        (requestHandler lower ctx).effects =
          [Effect.logInfo "Processing" [("url", pageUrl ctx)],
           Effect.enqueueLinks linkGlobs,
           Effect.pushData (mkRecord f (pageUrl ctx)),
           Effect.logInfo "Saved item" [("title", f.title), ("url", pageUrl ctx)]]) ∧
      (∀ m, ctx.pushData (mkRecord f (pageUrl ctx)) = Except.error m →
        (requestHandler lower ctx).effects =
          [Effect.logInfo "Processing" [("url", pageUrl ctx)],
           Effect.enqueueLinks linkGlobs,
           Effect.pushData (mkRecord f (pageUrl ctx)),
           Effect.logWarning "Extraction error" [("url", pageUrl ctx), ("message", m)]])) ∧
    (f.title = "" ∧ f.summary = "" →
      (requestHandler lower ctx).effects =
        [Effect.logInfo "Processing" [("url", pageUrl ctx)],
         Effect.enqueueLinks linkGlobs,
         Effect.logDebug "No meaningful title/summary found" [("url", pageUrl ctx)]] ∧
      pushed (requestHandler lower ctx).effects = []) := by
  refine ⟨?_, ?_, ?_⟩
  · by_cases hc : f.title ≠ "" ∨ f.summary ≠ ""
    · cases hd : ctx.pushData (mkRecord f (pageUrl ctx)) <;>
        simp [requestHandler, tryBlock, hq, hf, emit, hc, hd]
    · simp [requestHandler, tryBlock, hq, hf, emit, hc]
  · intro hc
    cases hd : ctx.pushData (mkRecord f (pageUrl ctx)) <;>
      simp [requestHandler, tryBlock, hq, hf, emit, hc, hd, pushed]
  · intro hc
    have hn : ¬ (f.title ≠ "" ∨ f.summary ≠ "") := by
      rw [hc.1, hc.2]; simp
    simp [requestHandler, tryBlock, hq, hf, emit, hn, pushed]

/-- Claim C1, worked on the bill page (the record is pushed and saved), on the
same page with a dataset that rejects the record (pushed, then the warning)
and on the empty page (only the debug message). -/
theorem emission_policy_witness :
    (probeFields asciiLower (pageUrl billPage) billPage.dollar =
        Except.ok { title := "H.R. 123 Overview", date := "2024-03-01", type := some "bill",
                    summary := "A bill about trade." } ∧
      pushed (requestHandler asciiLower billPage).effects = [billRecord] ∧
      (requestHandler asciiLower billPage).effects =
        [Effect.logInfo "Processing" [("url", "https://www.congress.gov/bill/hr123")],
         Effect.enqueueLinks linkGlobs,
         Effect.pushData billRecord,
         Effect.logInfo "Saved item"
           [("title", "H.R. 123 Overview"), ("url", "https://www.congress.gov/bill/hr123")]]) ∧
    (rejectedPage.pushData billRecord = Except.error "Data item is too large" ∧
      (requestHandler asciiLower rejectedPage).effects =
        [Effect.logInfo "Processing" [("url", "https://www.congress.gov/bill/hr123")],
         Effect.enqueueLinks linkGlobs,
         Effect.pushData billRecord,
         Effect.logWarning "Extraction error"
           [("url", "https://www.congress.gov/bill/hr123"),
            ("message", "Data item is too large")]]) ∧
    (probeFields asciiLower (pageUrl emptyPage) emptyPage.dollar =
        Except.ok { title := "", date := "", type := some "", summary := "" } ∧
      (requestHandler asciiLower emptyPage).effects =
        [Effect.logInfo "Processing" [("url", "https://www.congress.gov/empty")],
         Effect.enqueueLinks linkGlobs,
         Effect.logDebug "No meaningful title/summary found"
           [("url", "https://www.congress.gov/empty")]] ∧
      pushed (requestHandler asciiLower emptyPage).effects = []) :=
  ⟨⟨rfl,
    ((emission_policy asciiLower billPage
      { title := "H.R. 123 Overview", date := "2024-03-01", type := some "bill",
        summary := "A bill about trade." } rfl rfl).2.1 (by decide)).1,
    ((emission_policy asciiLower billPage
      { title := "H.R. 123 Overview", date := "2024-03-01", type := some "bill",
        summary := "A bill about trade." } rfl rfl).2.1 (by decide)).2.2.1 rfl⟩,
   ⟨rfl,
    ((emission_policy asciiLower rejectedPage
      { title := "H.R. 123 Overview", date := "2024-03-01", type := some "bill",
        summary := "A bill about trade." } rfl rfl).2.1 (by decide)).2.2.2
      "Data item is too large" rfl⟩,
   ⟨rfl, (emission_policy asciiLower emptyPage
      { title := "", date := "", type := some "", summary := "" } rfl rfl).2.2
      (by decide)⟩⟩

/-- Claim C2 fails as stated: the plain page matches no URL rule and has no
Open-Graph type metadata, yet the record it yields has the empty string as
type, not `unknown`. -/
theorem default_type_unknown_counterexample :
    includes (pageUrl plainPage) "/bill/" = false ∧
      includes (pageUrl plainPage) "/bills/" = false ∧
      includes (asciiLower (pageUrl plainPage)) "press" = false ∧
      includes (asciiLower (pageUrl plainPage)) "disclosure" = false ∧
      includes (asciiLower (pageUrl plainPage)) "financial" = false ∧
      plainPage.select "meta[property=\"og:type\"]" = [] ∧
      pushed (requestHandler asciiLower plainPage).effects = [plainRecord] ∧
      plainRecord.type = "" ∧
      ¬ ∀ r ∈ pushed (requestHandler asciiLower plainPage).effects, r.type = "unknown" := by
  decide

/-- Claim C2, amended: when the URL matches none of the URL-substring rules
and the document has no Open-Graph type value (absent or empty), the type of
every emitted record is the empty string. -/
theorem default_type_empty (lower : String → String) (ctx : Context) (r : Record)
    (hr : r ∈ pushed (requestHandler lower ctx).effects)
    (h1 : includes (pageUrl ctx) "/bill/" = false)
    (h2 : includes (pageUrl ctx) "/bills/" = false)
    (h3 : includes (lower (pageUrl ctx)) "press" = false)
    (h4 : includes (lower (pageUrl ctx)) "disclosure" = false)
    (h5 : includes (lower (pageUrl ctx)) "financial" = false)
    (hog : orEmpty (attr (ctx.select "meta[property=\"og:type\"]") "content") = "") :
    r.type = "" := by
  obtain ⟨f, hf, _, rfl⟩ := mem_pushed_requestHandler hr
  have hv := probeType_val (probeFields_ok hf).2.2.1
  simp only [mkRecord]
  rw [hv]
  simp [h1, h2, h3, h4, h5, not_includes_press_release h3, hog]

/-- Claim C2 amended, worked on the plain page. -/
theorem default_type_empty_witness :
    plainRecord ∈ pushed (requestHandler asciiLower plainPage).effects ∧
      attr (plainPage.select "meta[property=\"og:type\"]") "content" = none ∧
      plainRecord.type = "" :=
  ⟨by decide, by decide,
   default_type_empty asciiLower plainPage plainRecord (by decide) (by decide) (by decide)
    (by decide) (by decide) (by decide) (by decide)⟩

/-- Claim C3 fails as stated: on the website page the emitted type is the
Open-Graph value `website`, which is not a member of the PageType enumeration. -/
theorem type_enumeration_counterexample :
    pushed (requestHandler asciiLower websitePage).effects = [websiteRecord] ∧
      websiteRecord.type = "website" ∧
      ¬ ∀ r ∈ pushed (requestHandler asciiLower websitePage).effects, r.type ∈ pageTypes := by
  decide

/-- Claim C3, amended: the type of every emitted record is `bill`,
`press_release`, `disclosure`, the empty string, or the non-empty content of
the document's Open-Graph type metadata, passed through verbatim. -/
theorem type_values (lower : String → String) (ctx : Context) (r : Record)
    (hr : r ∈ pushed (requestHandler lower ctx).effects) :
    r.type ∈ ["bill", "press_release", "disclosure", ""] ∨
      (r.type ≠ "" ∧
        attr (ctx.select "meta[property=\"og:type\"]") "content" = some r.type) := by
  obtain ⟨f, hf, _, rfl⟩ := mem_pushed_requestHandler hr
  have hv := probeType_val (probeFields_ok hf).2.2.1
  simp only [mkRecord]
  rw [hv]
  split_ifs
  · simp
  · simp
  · simp
  · cases ha : attr (ctx.select "meta[property=\"og:type\"]") "content" with
    | none => simp [orEmpty]
    | some v =>
      by_cases hv0 : v = ""
      · simp [orEmpty, hv0]
      · right
        exact ⟨by simpa [orEmpty] using hv0, by simp [orEmpty]⟩

/-- Claim C3 amended, worked on the website page. -/
theorem type_values_witness :
    websiteRecord ∈ pushed (requestHandler asciiLower websitePage).effects ∧
      (websiteRecord.type ∈ ["bill", "press_release", "disclosure", ""] ∨
        (websiteRecord.type ≠ "" ∧
          attr (websitePage.select "meta[property=\"og:type\"]") "content" =
            some websiteRecord.type)) :=
  ⟨by decide, type_values asciiLower websitePage websiteRecord (by decide)⟩

/-- Claim C4. Bill precedence: when the URL contains `/bill/`, the type of
every emitted record is `bill`, whatever the Open-Graph type metadata and
whatever else the URL contains. -/
theorem bill_precedence (lower : String → String) (ctx : Context) (r : Record)
    (hb : includes (pageUrl ctx) "/bill/" = true)
    (hr : r ∈ pushed (requestHandler lower ctx).effects) :
    r.type = "bill" := by
  obtain ⟨f, hf, _, rfl⟩ := mem_pushed_requestHandler hr
  have hv := probeType_val (probeFields_ok hf).2.2.1
  simp only [mkRecord]
  rw [hv]
  simp [hb]

/-- Claim C4, worked on the bill page, whose Open-Graph type is `website`. -/
theorem bill_precedence_witness :
    includes (pageUrl billPage) "/bill/" = true ∧
      attr (billPage.select "meta[property=\"og:type\"]") "content" = some "website" ∧
      billRecord ∈ pushed (requestHandler asciiLower billPage).effects ∧
      billRecord.type = "bill" :=
  ⟨by decide, by decide, by decide,
   bill_precedence asciiLower billPage billRecord (by decide) (by decide)⟩

/-- Claim C5. Below the bill rule the order is fixed: with neither `/bill/`
nor `/bills/` in the URL, a lower-cased URL containing `press` gives
`press_release`; otherwise one containing `disclosure` or `financial` gives
`disclosure`; the Open-Graph type metadata plays no part. -/
theorem url_rule_order (lower : String → String) (ctx : Context) (r : Record)
    (hr : r ∈ pushed (requestHandler lower ctx).effects)
    (h1 : includes (pageUrl ctx) "/bill/" = false)
    (h2 : includes (pageUrl ctx) "/bills/" = false) :
    (includes (lower (pageUrl ctx)) "press" = true → r.type = "press_release") ∧
      (includes (lower (pageUrl ctx)) "press" = false →
        includes (lower (pageUrl ctx)) "disclosure" = true ∨
          includes (lower (pageUrl ctx)) "financial" = true →
        r.type = "disclosure") := by
  obtain ⟨f, hf, _, rfl⟩ := mem_pushed_requestHandler hr
  have hv := probeType_val (probeFields_ok hf).2.2.1
  simp only [mkRecord]
  rw [hv]
  constructor
  · intro h3
    simp [h1, h2, h3]
  · intro h3 h4
    simp only [h1, h2, h3, not_includes_press_release h3]
    rcases h4 with h4 | h4 <;> simp [h4]

/-- Claim C5, worked on the press page, whose URL also contains `financial`
and `disclosure` and whose Open-Graph type is `article`. -/
theorem url_rule_order_witness :
    pressRecord ∈ pushed (requestHandler asciiLower pressPage).effects ∧
      includes (pageUrl pressPage) "/bill/" = false ∧
      includes (pageUrl pressPage) "/bills/" = false ∧
      includes (asciiLower (pageUrl pressPage)) "press" = true ∧
      includes (asciiLower (pageUrl pressPage)) "disclosure" = true ∧
      attr (pressPage.select "meta[property=\"og:type\"]") "content" = some "article" ∧
      pressRecord.type = "press_release" :=
  ⟨by decide, by decide, by decide, by decide, by decide, by decide,
   (url_rule_order asciiLower pressPage pressRecord (by decide) (by decide) (by decide)).1
     (by decide)⟩

/-- Claim C6 at the two-title page: the heading is blank and the document's
title, its first `title` element, reads "Head title", yet the title of the
record is "Head titleIcon": line 32 reads `$('title').text()` without the
`.first()` it applies to `h1`, so the text of the inline `svg` title is
appended. -/
theorem title_fallback_two_titles :
    trim (text (first (twoTitlePage.select "h1"))) = "" ∧
      trim (text (first (twoTitlePage.select "title"))) = "Head title" ∧
      pushed (requestHandler asciiLower twoTitlePage).effects = [twoTitleRecord] ∧
      twoTitleRecord.title = "Head titleIcon" ∧
      ¬ ∀ r ∈ pushed (requestHandler asciiLower twoTitlePage).effects,
          r.title = trim (text (first (twoTitlePage.select "title"))) := by
  decide

/-- Claim C7. Date priority chain: the date of every emitted record is the
first non-empty value among the `datetime` attribute of the first `time`
element, the `DC.date` content, the `article:published_time` content and the
trimmed text of the first date-styled region, and the empty string when all
four are absent or empty. -/
theorem date_priority_chain (lower : String → String) (ctx : Context) (r : Record)
    (hr : r ∈ pushed (requestHandler lower ctx).effects) :
    r.date = firstNonEmpty
      [orEmpty (attr (first (ctx.select "time")) "datetime"),
       orEmpty (attr (ctx.select "meta[name=\"DC.date\"]") "content"),
       orEmpty (attr (ctx.select "meta[property=\"article:published_time\"]") "content"),
       trim (text (first (ctx.select
         "span.date, .result-item .date, .display-date, .publication-date")))] := by
  obtain ⟨f, hf, _, rfl⟩ := mem_pushed_requestHandler hr
  exact probeDate_val (probeFields_ok hf).2.1

/-- Claim C7, worked on the press page, where only the third source is present. -/
theorem date_priority_chain_witness :
    pressRecord ∈ pushed (requestHandler asciiLower pressPage).effects ∧
      pressRecord.date = firstNonEmpty ["", "", "2024-05-06T10:00:00Z", ""] :=
  ⟨by decide, date_priority_chain asciiLower pressPage pressRecord (by decide)⟩

/-- Claim C8 fails as stated: the padded page takes its summary from the
description metadata, and the emitted summary keeps the surrounding blanks. -/
theorem summary_trimmed_counterexample :
    attr (paddedPage.select "meta[name=\"description\"]") "content" = some " padded " ∧
      pushed (requestHandler asciiLower paddedPage).effects = [paddedRecord] ∧
      paddedRecord.summary = " padded " ∧
      ¬ noEdgeWhiteSpace paddedRecord.summary := by
  refine ⟨by decide, by decide, by decide, ?_⟩
  intro h
  have hc := h.1 ' ' rfl
  revert hc
  decide

/-- Claim C8, amended: the summary of every emitted record is the
description metadata content when non-empty, else the Open-Graph description
content when non-empty, else the trimmed text of the first paragraph; a
summary supplied by the paragraph has no white space at either end, while a
metadata value is passed through as it is. -/
theorem summary_chain (lower : String → String) (ctx : Context) (r : Record)
    (hr : r ∈ pushed (requestHandler lower ctx).effects) :
    r.summary = firstNonEmpty
        [orEmpty (attr (ctx.select "meta[name=\"description\"]") "content"),
         orEmpty (attr (ctx.select "meta[property=\"og:description\"]") "content"),
         trim (text (first (ctx.select "p")))] ∧
      (orEmpty (attr (ctx.select "meta[name=\"description\"]") "content") = "" →
        orEmpty (attr (ctx.select "meta[property=\"og:description\"]") "content") = "" →
        r.summary = trim (text (first (ctx.select "p"))) ∧ noEdgeWhiteSpace r.summary) := by
  obtain ⟨f, hf, _, rfl⟩ := mem_pushed_requestHandler hr
  have hv := probeSummary_val (probeFields_ok hf).2.2.2
  simp only [mkRecord]
  refine ⟨hv, ?_⟩
  intro h1 h2
  have he : f.summary = trim (text (first (ctx.select "p"))) := by
    rw [hv, h1, h2]
    simp only [firstNonEmpty]
    split_ifs with h3 <;> simp_all
  rw [he]
  exact ⟨rfl, noEdgeWhiteSpace_trim _⟩

/-- Claim C8 amended, worked on the bill page, whose summary comes from the
first paragraph. -/
theorem summary_chain_witness :
    billRecord ∈ pushed (requestHandler asciiLower billPage).effects ∧
      text (first (billPage.select "p")) = " A bill about trade. " ∧
      billRecord.summary = trim (text (first (billPage.select "p"))) ∧
      noEdgeWhiteSpace billRecord.summary :=
  ⟨by decide, by decide,
   (summary_chain asciiLower billPage billRecord (by decide)).2 (by decide) (by decide)⟩

/-- Claim C9. Extraction fault containment: once the extraction step is
reached, if a probe throws with message `m` the handler pushes no record, logs
one warning carrying the page URL and `m`, and its promise is fulfilled; `m` is
the error of one of the selectors. -/
theorem extraction_fault_contained (lower : String → String) (ctx : Context) (m : String)
    (hq : ctx.enqueueLinks linkGlobs = Except.ok ())
    (hf : probeFields lower (pageUrl ctx) ctx.dollar = Except.error m) :
    (requestHandler lower ctx).result = Except.ok () ∧
      (requestHandler lower ctx).effects =
        [Effect.logInfo "Processing" [("url", pageUrl ctx)],
         Effect.enqueueLinks linkGlobs,
         Effect.logWarning "Extraction error" [("url", pageUrl ctx), ("message", m)]] ∧
      pushed (requestHandler lower ctx).effects = [] ∧
      ∃ selector, ctx.fault selector = some m := by
  refine ⟨?_, ?_, ?_, probeFields_error hf⟩ <;>
    simp [requestHandler, tryBlock, hq, hf, pushed]

/-- Claim C9, worked on the faulty page, where the `time` selector throws
after the heading has been read. -/
theorem extraction_fault_contained_witness :
    faultyPage.fault "time" = some "unmatched pseudo-class" ∧
      probeFields asciiLower (pageUrl faultyPage) faultyPage.dollar =
        Except.error "unmatched pseudo-class" ∧
      (requestHandler asciiLower faultyPage).result = Except.ok () ∧
      (requestHandler asciiLower faultyPage).effects =
        [Effect.logInfo "Processing" [("url", "https://www.congress.gov/bill/hr9/text")],
         Effect.enqueueLinks linkGlobs,
         Effect.logWarning "Extraction error"
           [("url", "https://www.congress.gov/bill/hr9/text"),
            ("message", "unmatched pseudo-class")]] :=
  ⟨by decide, rfl,
   (extraction_fault_contained asciiLower faultyPage "unmatched pseudo-class" rfl rfl).1,
   (extraction_fault_contained asciiLower faultyPage "unmatched pseudo-class" rfl rfl).2.1⟩

/-- Claim C10. Link discovery round trip: against the base URL
`https://www.congress.gov/search` the relative link `/bill/hr123` resolves to
`https://www.congress.gov/bill/hr123`, whose path matches the glob
`**/bill/**` that the handler passes to `enqueueLinks`, so the link is
retained. -/
theorem link_discovery_round_trip :
    resolveLink "https://www.congress.gov/search" "/bill/hr123" =
        some "https://www.congress.gov/bill/hr123" ∧
      "**/bill/**" ∈ linkGlobs ∧
      globMatch "**/bill/**" (urlPath "https://www.congress.gov/bill/hr123") = true ∧
      discover "https://www.congress.gov/search" ["/bill/hr123"] linkGlobs =
        ["https://www.congress.gov/bill/hr123"] ∧
      ∀ (lower : String → String) (ctx : Context),
        Effect.enqueueLinks linkGlobs ∈ (requestHandler lower ctx).effects := by
  refine ⟨by decide, by decide, by decide, by decide, ?_⟩
  intro lower ctx
  unfold requestHandler
  cases hq : ctx.enqueueLinks linkGlobs with
  | error e => simp
  | ok u =>
    rcases ht : tryBlock lower ctx with ⟨calls, _ | _⟩ <;> simp

end Korak
